import Mathlib

/-!
# libdpd80: the burst callbacks of the continuous-acquisition session

Shallow embedding of `callbacks.c` (`transfer_callback`, `callback_counter`), `config.c`
(`parse_config`) and `libdpd80.c` (`main`).

* A sample buffer `uint16_t* data` is a function from the index to the 16-bit word stored there.
* `int` and `int64_t` values are integers; the result of a signed operation is reduced to
  the width of its type (`wrap32`, `wrap64`: two's complement, what the compiled subtraction
  yields where ISO C leaves the overflow undefined), the `unsigned long long` accumulator
  modulo `2^64`.
* `printf` output is the list of the lines printed, one constructor of `OutLine` per format
  string of the source.
* `*samples_left` (the `userdata` cell) is passed in and returned in the result.
* `Config* config` is passed in (its contents at entry) and returned; the local `Config config`
  of `main` is not initialised, so its contents at entry are a parameter of `main`.
* The two values of `ERROR_STATUS` (declared in `libdpd80.h`) are parameters.
* What `main` prints and which functions of the vendor library it calls is a list of `Event`.
-/

namespace Dpd80

/-! ## Machine integers -/

/-- Range of a C `int` (32 bit, two's complement). -/
def isInt32 (x : Int) : Prop := -2 ^ 31 ≤ x ∧ x < 2 ^ 31

/-- Range of an `int64_t`. -/
def isInt64 (x : Int) : Prop := -2 ^ 63 ≤ x ∧ x < 2 ^ 63

instance (x : Int) : Decidable (isInt32 x) := by
  unfold isInt32; exact inferInstance

instance (x : Int) : Decidable (isInt64 x) := by
  unfold isInt64; exact inferInstance

/-- Reduction of an integer to the `int` range (two's complement, 32 bit). -/
def wrap32 (x : Int) : Int := (x + 2 ^ 31) % 2 ^ 32 - 2 ^ 31

/-- Reduction of an integer to the `int64_t` range (two's complement, 64 bit). -/
def wrap64 (x : Int) : Int := (x + 2 ^ 63) % 2 ^ 64 - 2 ^ 63

/-! ## Output -/

/-- One printed line; the constructors are the four `printf` formats of `callbacks.c`. -/
inductive OutLine where
  /-- The line `data loss detected` of `transfer_callback`. -/
  | lossNotice : OutLine
  /-- The line `%d` of `transfer_callback`, with its argument. -/
  | tagged (v : Int) : OutLine
  /-- The line `ERR!: DATA LOSS DETECTED` of `callback_counter`. -/
  | lossError : OutLine
  /-- The line `DATA: %d;%llu` of `callback_counter`, with its two arguments. -/
  | data (ndata : Int) (sum : Nat) : OutLine
  deriving DecidableEq, Repr

/-- Is the line a loss diagnostic of `callback_counter`? -/
def OutLine.isLoss : OutLine → Bool
  | .lossError => true
  | _ => false

/-- Is the line a data record of `callback_counter`? -/
def OutLine.isData : OutLine → Bool
  | .data _ _ => true
  | _ => false

/-- What one call of a transfer callback does: the lines it prints, the value it leaves in
`*samples_left`, and the `int` it returns. -/
structure CallResult where
  out : List OutLine
  samples_left : Int
  ret : Int
  deriving DecidableEq, Repr

/-! ## `callbacks.c` -/

/-- The expression `data[i] & 0x03ff` of `callback_counter` ("apply data bit mask"). -/
def decode_channel_sample (raw : Nat) : Nat := raw &&& 0x03ff

/-- The expression `data[0] - 49152` of `transfer_callback` ("remove bit mask"): the sample
is promoted to `int` and the difference is an `int`. -/
def decode_tagged_sample (raw : Nat) : Int := wrap32 ((raw : Int) - 49152)

/-- The loop `for (int i = 0; i < ndata; ++i) sum += data[i] & 0x03ff;` from the state
`(i, sum)`; `sum` is an `unsigned long long`. `fuel` bounds the number of iterations. -/
def counter_loop (data : Nat → Nat) (ndata : Int) : Nat → Nat → Nat → Nat
  | 0, _, sum => sum
  | fuel + 1, i, sum =>
    if (i : Int) < ndata then
      counter_loop data ndata fuel (i + 1) ((sum + decode_channel_sample (data i)) % 2 ^ 64)
    else
      sum

/-- `int callback_counter(uint16_t* data, int ndata, int dataloss, void* userdata)`,
with `samples_left` the value of `*(int64_t*)userdata` at entry. -/
def callback_counter (data : Nat → Nat) (ndata dataloss samples_left : Int) : CallResult :=
  let sum := counter_loop data ndata ndata.toNat 0 0
  let left := wrap64 (samples_left - ndata)
  { out := (if dataloss ≠ 0 then [OutLine.lossError] else []) ++ [OutLine.data ndata sum]
    samples_left := left
    ret := if left > 0 then 1 else 0 }

/-- `int transfer_callback(uint16_t* data, int ndata, int dataloss, void* userdata)`. -/
def transfer_callback (data : Nat → Nat) (ndata dataloss samples_left : Int) : CallResult :=
  let left := wrap64 (samples_left - ndata)
  { out := (if dataloss ≠ 0 then [OutLine.lossNotice] else [])
      ++ [OutLine.tagged (decode_tagged_sample (data 0))]
    samples_left := left
    ret := if left > 0 then 1 else 0 }

/-! ## Successive bursts of one session -/

/-- The arguments the transfer engine passes for one burst (`ri_transfer_callback`). -/
structure Burst where
  data : Nat → Nat
  ndata : Int
  dataloss : Int

/-- The calls of `callback_counter` for the bursts of a list, in order, each on the
`*samples_left` the previous call left; `samples_left` is the value before the first call. -/
def deliver (samples_left : Int) : List Burst → List CallResult
  | [] => []
  | b :: bs =>
    let r := callback_counter b.data b.ndata b.dataloss samples_left
    r :: deliver r.samples_left bs

/-- A burst of `n` samples that all hold the word `w`, without data loss. -/
def constBurst (w : Nat) (n : Int) : Burst := { data := fun _ => w, ndata := n, dataloss := 0 }

/-- The sum of the masked samples `data[0] .. data[n-1]`, as a natural number (no reduction
modulo `2^64`): what the data record of a burst of `n` samples is specified to carry. -/
def burstSum (data : Nat → Nat) (n : Nat) : Nat :=
  ∑ i in Finset.range n, (data i &&& 0x03ff)

/-- The total length `n1 + ... + nk` of the first `k` bursts of a list. -/
def lengthUpTo (bs : List Burst) (k : Nat) : Int := ((bs.take k).map Burst.ndata).sum

/-! ## Reads of the sample buffer

The callbacks on a buffer of finitely many samples: `buf` lists the words the buffer holds,
`data[i]` is `buf[i]?`, and a read at an index the buffer does not hold ends the call. -/

/-- How the loop of `callback_counter` ends on a finite buffer. -/
inductive LoopOutcome where
  /-- The guard `i < ndata` failed: the final `sum` and the indices read, in order. -/
  | done (sum : Nat) (reads : List Nat) : LoopOutcome
  /-- The loop read `data[index]` outside the buffer. -/
  | outOfBounds (index : Nat) : LoopOutcome
  /-- The guard still held when the fuel was used up. -/
  | outOfFuel : LoopOutcome
  deriving DecidableEq, Repr

/-- How a call of a callback ends on a finite buffer. -/
inductive CallOutcome where
  /-- The call returned: what it did and the indices of `data` it read, in order. -/
  | returned (r : CallResult) (reads : List Nat) : CallOutcome
  /-- The call read `data[index]` outside the buffer. -/
  | outOfBounds (index : Nat) : CallOutcome
  /-- The loop did not end within the fuel. -/
  | outOfFuel : CallOutcome
  deriving DecidableEq, Repr

/-- The loop `for (int i = 0; i < ndata; ++i) sum += data[i] & 0x03ff;` on the buffer `buf`,
from the state `(i, sum)`, with the indices read so far in `reads`. It ends only when the
guard fails; `fuel` bounds the number of iterations tried. -/
def counter_loop_mem (buf : List Nat) (ndata : Int) :
    Nat → Nat → Nat → List Nat → LoopOutcome
  | 0, i, sum, reads =>
    if (i : Int) < ndata then LoopOutcome.outOfFuel else LoopOutcome.done sum reads
  | fuel + 1, i, sum, reads =>
    if (i : Int) < ndata then
      match buf[i]? with
      | some w =>
        counter_loop_mem buf ndata fuel (i + 1)
          ((sum + decode_channel_sample w) % 2 ^ 64) (reads ++ [i])
      | none => LoopOutcome.outOfBounds i
    else
      LoopOutcome.done sum reads

/-- The function `callback_counter` on the buffer `buf`, its loop run with `fuel`. -/
def callback_counter_mem (fuel : Nat) (buf : List Nat) (ndata dataloss samples_left : Int) :
    CallOutcome :=
  match counter_loop_mem buf ndata fuel 0 0 [] with
  | LoopOutcome.done sum reads =>
    let left := wrap64 (samples_left - ndata)
    CallOutcome.returned
      { out := (if dataloss ≠ 0 then [OutLine.lossError] else []) ++ [OutLine.data ndata sum]
        samples_left := left
        ret := if left > 0 then 1 else 0 }
      reads
  | LoopOutcome.outOfBounds i => CallOutcome.outOfBounds i
  | LoopOutcome.outOfFuel => CallOutcome.outOfFuel

/-- The function `transfer_callback` on the buffer `buf`: the argument `data[0] - 49152` of
its `printf` is evaluated in every call, whatever `ndata` is. -/
def transfer_callback_mem (buf : List Nat) (ndata dataloss samples_left : Int) : CallOutcome :=
  match buf[0]? with
  | some w =>
    let left := wrap64 (samples_left - ndata)
    CallOutcome.returned
      { out := (if dataloss ≠ 0 then [OutLine.lossNotice] else [])
          ++ [OutLine.tagged (decode_tagged_sample w)]
        samples_left := left
        ret := if left > 0 then 1 else 0 }
      [0]
  | none => CallOutcome.outOfBounds 0

/-! ## `config.h`, `config.c` -/

/-- The value of `COUNTER` in `enum measurement_type`. -/
def COUNTER : Int := 0

/-- The value of `HISTOGRAM` in `enum measurement_type`. -/
def HISTOGRAM : Int := 1

/-- The `struct config`: `measurement_type` holds the `int` value of the enum (an
uninitialised one may hold any value), `n_samples` is an `unsigned long`. -/
structure Config where
  measurement_type : Int
  n_samples : Nat
  deriving DecidableEq, Repr

/-- The two values of `ERROR_STATUS` that `config.c` and `libdpd80.c` use; their
declaration (`libdpd80.h`) is not among the sources. -/
structure StatusCodes where
  STATUS_SUCCESS : Int
  STATUS_FAILURE : Int

/-- `ERROR_STATUS parse_config(int argc, char* argv[], Config* config)`: the status
returned and the contents of `*config` at return. `argv[1]` is the second string of `argv`;
`strcmp(argv[1], "histogram") == 0` is equality of the strings. -/
def parse_config (st : StatusCodes) (argc : Int) (argv : List String) (config : Config) :
    Int × Config :=
  if argc = 1 then
    (st.STATUS_SUCCESS, { measurement_type := COUNTER, n_samples := 80 * 1000 * 1000 })
  else if argc = 2 then
    if argv[1]? = some "histogram" then
      (st.STATUS_SUCCESS, { config with measurement_type := HISTOGRAM })
    else
      (st.STATUS_SUCCESS, config)
  else
    (st.STATUS_FAILURE, config)

/-! ## `libdpd80.c` -/

/-- Modelled from the spec: the vendor function `ri_start_continuous_transfer` is only
declared (`ri.h`); it calls the callback, here `callback_counter`, for each burst the device
delivers, in order, until a call returns false (0). The result is the list of the calls. -/
def ri_start_continuous_transfer (samples_left : Int) : List Burst → List CallResult
  | [] => []
  | b :: bs =>
    let r := callback_counter b.data b.ndata b.dataloss samples_left
    if r.ret ≠ 0 then r :: ri_start_continuous_transfer r.samples_left bs else [r]

/-- What `main` does, in order: the lines it prints and the vendor functions it calls. -/
inductive Event where
  /-- The line `META: ARGC %d`. -/
  | metaArgc (argc : Int) : Event
  /-- The line `META: ARGV[%d] %s`. -/
  | metaArgv (i : Nat) (arg : String) : Event
  /-- The text `ERR!: ARGS INCORRECT`. -/
  | errArgs : Event
  /-- The line `META: CONFIG MEASUREMENT TYPE %d`. -/
  | metaConfig (measurement_type : Int) : Event
  /-- The call `ri_init()`. -/
  | ri_init : Event
  /-- The call `ri_open_device()`. -/
  | ri_open_device : Event
  /-- The line `Error: device not found` on `stderr`. -/
  | errDeviceNotFound : Event
  /-- The line `META: REQUEST COUNTER SAMPLES %lld`. -/
  | metaRequest (samples_to_transfer : Int) : Event
  /-- The line `META: START_OF_STREAM`. -/
  | startOfStream : Event
  /-- The call `ri_start_continuous_transfer(device, callback_counter, &samples_left)`, with
  the value of `samples_left` at the call and the calls of `callback_counter` it makes. -/
  | transfer (samples_left : Int) (calls : List CallResult) : Event
  /-- The line `META: END_OF_STREAM`. -/
  | endOfStream : Event
  /-- The three lines `META: TRANSFERED / MB`, `META: ELAPSED TIME / s`, `META: SPEED / MBPS`
  (their values come from `clock()` and floating point and are not modelled). -/
  | metaSummary : Event
  /-- The text `ERR!: MEASUREMENT TYPE UNKNOWN`. -/
  | errUnknownType : Event
  /-- The call `ri_close_device(device)`. -/
  | ri_close_device : Event
  /-- The call `ri_exit()`. -/
  | ri_exit : Event
  deriving DecidableEq, Repr

/-- Is the event a call of the vendor library (`ri_...`)? -/
def Event.isDevice : Event → Bool
  | .ri_init => true
  | .ri_open_device => true
  | .transfer _ _ => true
  | .ri_close_device => true
  | .ri_exit => true
  | _ => false

/-- Is the event the start of a transfer (the only place `callback_counter` is called)? -/
def Event.isTransfer : Event → Bool
  | .transfer _ _ => true
  | _ => false

/-- What a run of `main` does and the status it returns. -/
structure MainResult where
  events : List Event
  status : Int
  deriving DecidableEq, Repr

/-- `ERROR_STATUS main(int argc, char* argv[])` with `DEBUG` defined. `config0` is the
content of the uninitialised local `config`, `deviceFound` tells whether `ri_open_device()`
returns a device, `bursts` are the bursts the device delivers during the transfer. -/
def main (st : StatusCodes) (argc : Int) (argv : List String) (config0 : Config)
    (deviceFound : Bool) (bursts : List Burst) : MainResult :=
  let dbg := Event.metaArgc argc
    :: (List.range argc.toNat).map (fun i => Event.metaArgv i (argv.getD i ""))
  let parsed := parse_config st argc argv config0
  if parsed.1 ≠ st.STATUS_SUCCESS then
    { events := dbg ++ [Event.errArgs], status := 1 }
  else
    let config := parsed.2
    let opened := dbg ++ [Event.metaConfig config.measurement_type, Event.ri_init,
      Event.ri_open_device]
    if deviceFound = false then
      { events := opened ++ [Event.errDeviceNotFound], status := 1 }
    else if config.measurement_type = COUNTER then
      let samples_to_transfer := wrap64 (config.n_samples : Int)
      let samples_left := samples_to_transfer
      { events := opened ++ [Event.metaRequest samples_to_transfer, Event.startOfStream,
          Event.transfer samples_left (ri_start_continuous_transfer samples_left bursts),
          Event.endOfStream, Event.metaSummary, Event.ri_close_device, Event.ri_exit]
        status := 0 }
    else
      { events := opened ++ [Event.errUnknownType], status := 1 }

/-! ## Helper lemmas -/

theorem wrap64_of_isInt64 {x : Int} (h : isInt64 x) : wrap64 x = x := by
  unfold isInt64 at h
  unfold wrap64
  rw [Int.emod_eq_of_lt (by omega) (by omega)]
  omega

theorem wrap32_of_isInt32 {x : Int} (h : isInt32 x) : wrap32 x = x := by
  unfold isInt32 at h
  unfold wrap32
  rw [Int.emod_eq_of_lt (by omega) (by omega)]
  omega

theorem isInt64_wrap64 (x : Int) : isInt64 (wrap64 x) := by
  unfold isInt64 wrap64
  have h1 := Int.emod_nonneg (x + 2 ^ 63) (show (2 ^ 64 : Int) ≠ 0 by norm_num)
  have h2 := Int.emod_lt_of_pos (x + 2 ^ 63) (show (0 : Int) < 2 ^ 64 by norm_num)
  constructor <;> omega

theorem decode_channel_sample_eq_mod (v : Nat) : decode_channel_sample v = v % 1024 := by
  unfold decode_channel_sample
  exact Nat.and_pow_two_sub_one_eq_mod v 10

theorem decode_channel_sample_le (v : Nat) : decode_channel_sample v ≤ 1023 := by
  rw [decode_channel_sample_eq_mod]
  omega

theorem burstSum_succ (data : Nat → Nat) (n : Nat) :
    burstSum data (n + 1) = burstSum data n + decode_channel_sample (data n) := by
  simp [burstSum, decode_channel_sample, Finset.sum_range_succ]

theorem burstSum_le (data : Nat → Nat) (n : Nat) : burstSum data n ≤ 1023 * n := by
  induction n with
  | zero => simp [burstSum]
  | succ k ih =>
    rw [burstSum_succ]
    have := decode_channel_sample_le (data k)
    omega

/-- The loop from `(i, sum)`: it adds the masked samples `data[i] ..` up to index `ndata - 1`,
or the next `fuel` of them when the fuel is smaller, modulo `2^64`. -/
theorem counter_loop_eq (data : Nat → Nat) (ndata : Int) (fuel i sum : Nat)
    (hs : sum < 2 ^ 64) :
    counter_loop data ndata fuel i sum
      = (sum + ∑ j in Finset.range (min fuel (ndata - i).toNat),
          decode_channel_sample (data (i + j))) % 2 ^ 64 := by
  induction fuel generalizing i sum with
  | zero =>
    simp only [counter_loop, Nat.zero_min, Finset.range_zero, Finset.sum_empty, Nat.add_zero]
    exact (Nat.mod_eq_of_lt hs).symm
  | succ f ih =>
    unfold counter_loop
    by_cases hlt : (i : Int) < ndata
    · rw [if_pos hlt, ih (i + 1) _ (Nat.mod_lt _ (by norm_num))]
      have hk : (ndata - (i : Int)).toNat = (ndata - ((i + 1 : Nat) : Int)).toNat + 1 := by
        omega
      rw [hk, Nat.succ_min_succ, Finset.sum_range_succ', Nat.mod_add_mod]
      congr 1
      have : ∀ j, i + 1 + j = i + (j + 1) := fun j => by omega
      simp only [this, Nat.add_zero]
      omega
    · rw [if_neg hlt]
      have hk : (ndata - (i : Int)).toNat = 0 := by omega
      simp only [hk, Nat.min_zero, Finset.range_zero, Finset.sum_empty, Nat.add_zero]
      exact (Nat.mod_eq_of_lt hs).symm

/-- The loop of `callback_counter` ends because its guard fails, not for lack of fuel:
more fuel than `ndata` iterations changes nothing. -/
theorem counter_loop_fuel (data : Nat → Nat) (ndata : Int) (extra : Nat) :
    counter_loop data ndata (ndata.toNat + extra) 0 0 = counter_loop data ndata ndata.toNat 0 0 := by
  rw [counter_loop_eq _ _ _ _ _ (by norm_num), counter_loop_eq _ _ _ _ _ (by norm_num)]
  simp

/-- The accumulator of `callback_counter` for a burst of `ndata < 2^31` samples: the exact
sum of the masked samples. -/
theorem counter_loop_burstSum (data : Nat → Nat) (ndata : Int) (h : ndata < 2 ^ 31) :
    counter_loop data ndata ndata.toNat 0 0 = burstSum data ndata.toNat := by
  rw [counter_loop_eq _ _ _ _ _ (by norm_num)]
  have hb := burstSum_le data ndata.toNat
  have hn : ndata.toNat < 2 ^ 31 := by omega
  simp only [Nat.cast_zero, sub_zero, min_self, Nat.zero_add]
  have : (∑ j in Finset.range ndata.toNat, decode_channel_sample (data j))
      = burstSum data ndata.toNat := rfl
  rw [this]
  exact Nat.mod_eq_of_lt (by omega)

theorem lengthUpTo_zero (bs : List Burst) : lengthUpTo bs 0 = 0 := by
  simp [lengthUpTo]

theorem lengthUpTo_cons (b : Burst) (bs : List Burst) (k : Nat) :
    lengthUpTo (b :: bs) (k + 1) = b.ndata + lengthUpTo bs k := by
  simp [lengthUpTo]

/-- The value a call returns is `0` or `1`, the value of `*samples_left > 0`. -/
theorem callback_counter_ret (data : Nat → Nat) (ndata dataloss s : Int) :
    (callback_counter data ndata dataloss s).ret
      = if (callback_counter data ndata dataloss s).samples_left > 0 then 1 else 0 := rfl

theorem callback_counter_left (data : Nat → Nat) (ndata dataloss s : Int)
    (h : isInt64 (s - ndata)) :
    (callback_counter data ndata dataloss s).samples_left = s - ndata := by
  simp only [callback_counter, wrap64_of_isInt64 h]

/-- The values left and returned by the successive calls, as long as no subtraction leaves
the `int64_t` range. -/
theorem deliver_accounting (T : Int) (bs : List Burst)
    (h : ∀ j, j ≤ bs.length → isInt64 (T - lengthUpTo bs j)) :
    (deliver T bs).map (fun r => (r.samples_left, r.ret))
      = (List.range bs.length).map
          (fun k => (T - lengthUpTo bs (k + 1),
            if T - lengthUpTo bs (k + 1) > 0 then (1 : Int) else 0)) := by
  induction bs generalizing T with
  | nil => rfl
  | cons b bs ih =>
    have h1 : isInt64 (T - b.ndata) := by
      have := h 1 (by simp)
      rw [lengthUpTo_cons, lengthUpTo_zero] at this
      simpa using this
    have hrest : ∀ j, j ≤ bs.length → isInt64 (T - b.ndata - lengthUpTo bs j) := by
      intro j hj
      have := h (j + 1) (by simpa using hj)
      rw [lengthUpTo_cons] at this
      have e : T - b.ndata - lengthUpTo bs j = T - (b.ndata + lengthUpTo bs j) := by ring
      rw [e]
      exact this
    simp only [deliver, List.map_cons, List.length_cons, List.range_succ_eq_map,
      List.map_map]
    rw [callback_counter_ret, callback_counter_left _ _ _ _ h1, ih _ hrest]
    have e0 : lengthUpTo (b :: bs) (0 + 1) = b.ndata := by
      rw [lengthUpTo_cons, lengthUpTo_zero]; ring
    rw [e0]
    congr 1
    apply List.map_congr_left
    intro k _
    simp only [Function.comp, Nat.succ_eq_add_one, lengthUpTo_cons]
    have e : T - b.ndata - lengthUpTo bs (k + 1) = T - (b.ndata + lengthUpTo bs (k + 1)) := by
      ring
    rw [e]

theorem wrap64_sub_wrap64 (a b : Int) : wrap64 (wrap64 a - b) = wrap64 (a - b) := by
  unfold wrap64
  omega

theorem burstSum_split (data : Nat → Nat) (k m : Nat) :
    burstSum data k + burstSum (fun i => data (k + i)) m = burstSum data (k + m) := by
  induction m with
  | zero => simp [burstSum]
  | succ j ih =>
    rw [burstSum_succ, ← Nat.add_assoc k j 1, burstSum_succ, ← ih]
    omega

/-- On a buffer that holds at least `ndata` samples the loop, given fuel for at least the
iterations left, ends by its guard; it computes what `counter_loop` computes and reads the
indices `i, i + 1, ..` below `ndata`, in order. -/
theorem counter_loop_mem_eq (buf : List Nat) (ndata : Int) (fuel i sum : Nat)
    (reads : List Nat) (hlen : ndata ≤ buf.length) (hf : (ndata - i).toNat ≤ fuel) :
    counter_loop_mem buf ndata fuel i sum reads
      = LoopOutcome.done
          (counter_loop (fun j => buf.getD j 0) ndata (ndata - i).toNat i sum)
          (reads ++ List.range' i (ndata - i).toNat) := by
  induction fuel generalizing i sum reads with
  | zero =>
    have hk : (ndata - (i : Int)).toNat = 0 := by omega
    have hlt : ¬ (i : Int) < ndata := by omega
    simp [counter_loop_mem, counter_loop, hk, hlt]
  | succ f ih =>
    unfold counter_loop_mem
    by_cases hlt : (i : Int) < ndata
    · have hi : i < buf.length := by omega
      have hk : (ndata - (i : Int)).toNat = (ndata - ((i + 1 : Nat) : Int)).toNat + 1 := by
        omega
      have hb : buf[i]? = some (buf.getD i 0) := by
        simp [List.getD, List.getElem?_eq_getElem hi]
      rw [if_pos hlt, hb]
      simp only []
      rw [ih (i + 1) _ _ (by omega), hk]
      simp only [counter_loop, if_pos hlt, List.range'_succ, List.append_assoc,
        List.singleton_append]
    · have hk : (ndata - (i : Int)).toNat = 0 := by omega
      rw [if_neg hlt]
      simp [counter_loop, hk]

theorem callback_counter_data_line (data : Nat → Nat) (ndata dataloss s : Int) :
    (callback_counter data ndata dataloss s).out.filter OutLine.isData
      = [OutLine.data ndata (counter_loop data ndata ndata.toNat 0 0)] := by
  by_cases hl : dataloss = 0 <;> simp [callback_counter, hl, OutLine.isData]

/-! ## Claims -/

/-- C1 (as stated, refuted): with `*samples_left = -2^63` and a burst of one sample the
subtraction leaves the `int64_t` range; the call leaves `2^63 - 1`, not `s - n`, and returns
a non-zero value although `s - n > 0` is false. -/
theorem c1_counterexample :
    isInt64 (-2 ^ 63) ∧ isInt32 1 ∧
    (callback_counter (fun _ => 0) 1 0 (-2 ^ 63)).samples_left = 2 ^ 63 - 1 ∧
    (callback_counter (fun _ => 0) 1 0 (-2 ^ 63)).samples_left ≠ -2 ^ 63 - 1 ∧
    ¬ ((callback_counter (fun _ => 0) 1 0 (-2 ^ 63)).ret ≠ 0 ↔ (-2 ^ 63 - 1 : Int) > 0) := by
  decide

/-- C1 (amended): whenever `s - n` is representable as an `int64_t`, one call of
`callback_counter` leaves `*samples_left = s - n` and returns non-zero iff `s - n > 0`. -/
theorem c1_counter_accounting (data : Nat → Nat) (n dataloss s : Int)
    (h : isInt64 (s - n)) :
    (callback_counter data n dataloss s).samples_left = s - n ∧
    ((callback_counter data n dataloss s).ret ≠ 0 ↔ s - n > 0) := by
  simp only [callback_counter, wrap64_of_isInt64 h]
  constructor
  · trivial
  · by_cases hp : s - n > 0 <;> simp [hp]

theorem c1_counter_accounting_witness :
    isInt64 (10 - 6) ∧
    (callback_counter (fun _ => 0x32) 6 0 10).samples_left = 10 - 6 ∧
    ((callback_counter (fun _ => 0x32) 6 0 10).ret ≠ 0 ↔ (10 : Int) - 6 > 0) :=
  ⟨by decide, c1_counter_accounting (fun _ => 0x32) 6 0 10 (by decide)⟩

/-- C2: the data record of `callback_counter` carries the burst length and the sum over
`i < n` of `data[i] & 0x03FF`, whatever `*samples_left` holds; hence in a sequence of calls
every record carries the sum of its own burst only. -/
theorem c2_data_record (data : Nat → Nat) (ndata dataloss s : Int) (s0 : Int)
    (bs : List Burst) (h : ndata < 2 ^ 31) (hbs : ∀ b ∈ bs, b.ndata < 2 ^ 31) :
    (callback_counter data ndata dataloss s).out.filter OutLine.isData
      = [OutLine.data ndata (∑ i in Finset.range ndata.toNat, (data i &&& 0x03ff))] ∧
    (deliver s0 bs).map (fun r => r.out.filter OutLine.isData)
      = bs.map (fun b => [OutLine.data b.ndata (burstSum b.data b.ndata.toNat)]) := by
  have single : ∀ (d : Nat → Nat) (n l t : Int), n < 2 ^ 31 →
      (callback_counter d n l t).out.filter OutLine.isData
        = [OutLine.data n (burstSum d n.toNat)] := by
    intro d n l t hn
    simp only [callback_counter, counter_loop_burstSum d n hn]
    by_cases hl : l = 0 <;> simp [hl, OutLine.isData]
  refine ⟨single data ndata dataloss s h, ?_⟩
  induction bs generalizing s0 with
  | nil => rfl
  | cons b bs ih =>
    simp only [deliver, List.map_cons]
    rw [single b.data b.ndata b.dataloss s0 (hbs b (List.mem_cons_self _ _)),
      ih _ (fun c hc => hbs c (List.mem_cons_of_mem _ hc))]

set_option maxRecDepth 100000 in
/-- C2 at the scenario of the specification: 100 samples `0x0032` give `100;5000`. -/
theorem c2_data_record_witness :
    (callback_counter (fun _ => 0x0032) 100 0 100).out = [OutLine.data 100 5000] ∧
    (callback_counter (fun _ => 0x0032) 100 0 100).out.filter OutLine.isData
      = [OutLine.data 100 (∑ i in Finset.range (100 : Int).toNat, ((fun _ => 0x0032) i &&& 0x03ff))] ∧
    (deliver 100 [constBurst 0x0032 100]).map (fun r => r.out.filter OutLine.isData)
      = [constBurst 0x0032 100].map
          (fun b => [OutLine.data b.ndata (burstSum b.data b.ndata.toNat)]) :=
  ⟨by decide, c2_data_record (fun _ => 0x0032) 100 0 100 100 [constBurst 0x0032 100]
    (by decide) (by simp [constBurst])⟩

/-- C3 (as stated, refuted): a session started with `samples_left = -2^63 + 3` and two bursts
of 2 samples. The second subtraction leaves the `int64_t` range: the second call leaves
`2^63 - 1`, not `T - 4`, and returns 1 although `T - 4 > 0` is false. -/
theorem c3_counterexample :
    isInt64 (-2 ^ 63 + 3) ∧
    (deliver (-2 ^ 63 + 3) [constBurst 0 2, constBurst 0 2]).map
        (fun r => (r.samples_left, r.ret))
      = [(-2 ^ 63 + 1, 0), (2 ^ 63 - 1, 1)] ∧
    (2 ^ 63 - 1 : Int) ≠ (-2 ^ 63 + 3) - (2 + 2) ∧
    ¬ ((1 : Int) ≠ 0 ↔ ((-2 ^ 63 + 3) - (2 + 2) : Int) > 0) := by
  decide

/-- C3 (amended): for a session started with `samples_left = T` and bursts of lengths
`n1 .. nk` delivered in order, as long as every `T - (n1 + ... + nj)` is representable as
an `int64_t`, the `k`-th call leaves `T - (n1 + ... + nk)` and returns 1 if that value is
`> 0` and 0 otherwise. -/
theorem c3_session_accounting (T : Int) (bs : List Burst)
    (h : ∀ j, j ≤ bs.length → isInt64 (T - lengthUpTo bs j)) :
    (deliver T bs).map (fun r => (r.samples_left, r.ret))
      = (List.range bs.length).map
          (fun k => (T - lengthUpTo bs (k + 1),
            if T - lengthUpTo bs (k + 1) > 0 then (1 : Int) else 0)) :=
  deliver_accounting T bs h

/-- C3 at the scenario of the specification: `T = 10`, bursts of 6 and 6 samples give
4 / true, then -2 / false. -/
theorem c3_session_accounting_witness :
    (∀ j, j ≤ [constBurst 0x32 6, constBurst 0x32 6].length →
      isInt64 (10 - lengthUpTo [constBurst 0x32 6, constBurst 0x32 6] j)) ∧
    (deliver 10 [constBurst 0x32 6, constBurst 0x32 6]).map (fun r => (r.samples_left, r.ret))
      = [(4, 1), (-2, 0)] := by
  have h : ∀ j, j ≤ [constBurst 0x32 6, constBurst 0x32 6].length →
      isInt64 (10 - lengthUpTo [constBurst 0x32 6, constBurst 0x32 6] j) := by decide
  refine ⟨h, ?_⟩
  rw [c3_session_accounting 10 [constBurst 0x32 6, constBurst 0x32 6] h]
  decide

/-- C4: for bursts with `n >= 0` whose lengths sum to exactly `total_samples_requested`,
delivered in order by the transfer engine to `callback_counter` on a session started with
`samples_left = total_samples_requested`, the calls made are the calls for the first `k + 1`
bursts, the ones whose lengths reach the total: the final call returns 0 and each of the `k`
calls before it returns 1. -/
theorem c4_exact_budget (T : Int) (bs : List Burst)
    (hT : isInt64 T) (hne : bs ≠ []) (hnn : ∀ b ∈ bs, 0 ≤ b.ndata)
    (hsum : (bs.map Burst.ndata).sum = T) :
    ∃ k, k < bs.length ∧
      (ri_start_continuous_transfer T bs).map (fun r => r.ret) = List.replicate k 1 ++ [0] ∧
      ri_start_continuous_transfer T bs = (deliver T bs).take (k + 1) ∧
      lengthUpTo bs (k + 1) = T := by
  induction bs generalizing T with
  | nil => exact absurd rfl hne
  | cons b bs ih =>
    simp only [List.map_cons, List.sum_cons] at hsum
    have hb : 0 ≤ b.ndata := hnn b (List.mem_cons_self _ _)
    have hrest : ∀ c ∈ bs, 0 ≤ c.ndata := fun c hc => hnn c (List.mem_cons_of_mem _ hc)
    have hs : 0 ≤ (bs.map Burst.ndata).sum := by
      apply List.sum_nonneg
      intro x hx
      obtain ⟨c, hc, rfl⟩ := List.mem_map.mp hx
      exact hrest c hc
    have h1 : isInt64 (T - b.ndata) := by unfold isInt64 at *; omega
    have hleft := callback_counter_left b.data b.ndata b.dataloss T h1
    have hret := callback_counter_ret b.data b.ndata b.dataloss T
    rw [hleft] at hret
    by_cases hp : T - b.ndata > 0
    · rw [if_pos hp] at hret
      have hne2 : bs ≠ [] := by
        intro he
        rw [he] at hsum
        simp at hsum
        omega
      obtain ⟨k, hk, hrets, hpre, hlen⟩ := ih (T - b.ndata) h1 hne2 hrest (by omega)
      refine ⟨k + 1, by simpa using hk, ?_, ?_, ?_⟩
      · simp only [ri_start_continuous_transfer, hret, hleft, List.replicate_succ]
        simp [hrets, hret]
      · simp only [ri_start_continuous_transfer, hret, hleft, deliver]
        simp [hpre, hret]
      · rw [lengthUpTo_cons, hlen]
        ring
    · rw [if_neg hp] at hret
      refine ⟨0, by simp, ?_, ?_, ?_⟩
      · simp [ri_start_continuous_transfer, hret]
      · simp [ri_start_continuous_transfer, hret, deliver]
      · rw [lengthUpTo_cons, lengthUpTo_zero]
        omega

/-- C4 at `total_samples_requested = 10` and bursts of 4, 6 and 0 samples: the engine makes
two calls, which return 1 and 0; the empty burst is not delivered. -/
theorem c4_exact_budget_witness :
    isInt64 10 ∧ [constBurst 0 4, constBurst 0 6, constBurst 0 0] ≠ [] ∧
    (∀ b ∈ [constBurst 0 4, constBurst 0 6, constBurst 0 0], 0 ≤ b.ndata) ∧
    ([constBurst 0 4, constBurst 0 6, constBurst 0 0].map Burst.ndata).sum = 10 ∧
    (ri_start_continuous_transfer 10
        [constBurst 0 4, constBurst 0 6, constBurst 0 0]).map (fun r => r.ret) = [1, 0] ∧
    (∃ k, k < [constBurst 0 4, constBurst 0 6, constBurst 0 0].length ∧
      (ri_start_continuous_transfer 10
          [constBurst 0 4, constBurst 0 6, constBurst 0 0]).map (fun r => r.ret)
        = List.replicate k 1 ++ [0] ∧
      ri_start_continuous_transfer 10 [constBurst 0 4, constBurst 0 6, constBurst 0 0]
        = (deliver 10 [constBurst 0 4, constBurst 0 6, constBurst 0 0]).take (k + 1) ∧
      lengthUpTo [constBurst 0 4, constBurst 0 6, constBurst 0 0] (k + 1) = 10) :=
  ⟨by decide, by simp, by decide, by decide, by decide,
    c4_exact_budget 10 [constBurst 0 4, constBurst 0 6, constBurst 0 0]
      (by decide) (by simp) (by decide) (by decide)⟩

/-- C5: a burst with `n = 0` leaves `*samples_left` as it was, whatever the loss flag, and
returns the decision `samples_left > 0` on that unchanged value; after an earlier call this
is the value the earlier call returned. The record it prints is `DATA: 0;0`. -/
theorem c5_empty_burst (data data0 : Nat → Nat) (n dataloss dataloss0 s s0 : Int)
    (h : isInt64 s) :
    (callback_counter data 0 dataloss s).samples_left = s ∧
    (callback_counter data 0 dataloss s).ret = (if s > 0 then 1 else 0) ∧
    (callback_counter data 0 dataloss s).out.filter OutLine.isData = [OutLine.data 0 0] ∧
    (callback_counter data 0 dataloss
        (callback_counter data0 n dataloss0 s0).samples_left).samples_left
      = (callback_counter data0 n dataloss0 s0).samples_left ∧
    (callback_counter data 0 dataloss (callback_counter data0 n dataloss0 s0).samples_left).ret
      = (callback_counter data0 n dataloss0 s0).ret := by
  have keep : ∀ t : Int, isInt64 t → (callback_counter data 0 dataloss t).samples_left = t := by
    intro t ht
    have ht0 : isInt64 (t - 0) := by simpa using ht
    rw [callback_counter_left _ _ _ _ ht0]
    simp
  have hprev : isInt64 (callback_counter data0 n dataloss0 s0).samples_left :=
    isInt64_wrap64 _
  refine ⟨keep s h, ?_, ?_, keep _ hprev, ?_⟩
  · rw [callback_counter_ret, keep s h]
  · by_cases hl : dataloss = 0 <;> simp [callback_counter, counter_loop, hl, OutLine.isData]
  · rw [callback_counter_ret, keep _ hprev, callback_counter_ret]

/-- C5 at `samples_left = 4` after a burst of 6 samples on a budget of 10, loss flag set. -/
theorem c5_empty_burst_witness :
    isInt64 4 ∧
    (callback_counter (fun _ => 7) 0 1 4).samples_left = 4 ∧
    (callback_counter (fun _ => 7) 0 1 4).ret = 1 :=
  ⟨by decide, (c5_empty_burst (fun _ => 7) (fun _ => 7) 6 1 0 4 10 (by decide)).1,
    (c5_empty_burst (fun _ => 7) (fun _ => 7) 6 1 0 4 10 (by decide)).2.1⟩

/-- C6 (as stated, refuted): a burst with `n = 0` leaves `samples_left = 5` at 5, which is
not strictly less than before; and at `samples_left = -2^63` a burst of one sample leaves
`2^63 - 1`, which is larger than before. -/
theorem c6_counterexample :
    ¬ ((callback_counter (fun _ => 0) 0 0 5).samples_left < 5) ∧
    ¬ ((callback_counter (fun _ => 0) 1 0 (-2 ^ 63)).samples_left < -2 ^ 63) := by
  decide

/-- C6 (amended): at a call with `n >= 0` whose subtraction stays in the `int64_t` range,
`samples_left` does not increase, and it strictly decreases when `n > 0`; every call returns
0 exactly when `samples_left <= 0` after it. -/
theorem c6_monotone (data : Nat → Nat) (n dataloss s : Int)
    (hn : 0 ≤ n) (hr : isInt64 (s - n)) :
    (callback_counter data n dataloss s).samples_left ≤ s ∧
    (0 < n → (callback_counter data n dataloss s).samples_left < s) ∧
    ((callback_counter data n dataloss s).ret = 0
      ↔ (callback_counter data n dataloss s).samples_left ≤ 0) := by
  rw [callback_counter_ret, callback_counter_left _ _ _ _ hr]
  refine ⟨by omega, fun h => by omega, ?_⟩
  by_cases hp : s - n > 0
  · rw [if_pos hp]
    exact ⟨fun h => absurd h (by decide), fun h => by omega⟩
  · rw [if_neg hp]
    exact ⟨fun _ => by omega, fun _ => rfl⟩

/-- C6 (amended) at `samples_left = 4` and a burst of 6 samples. -/
theorem c6_monotone_witness :
    (0 : Int) ≤ 6 ∧ isInt64 (4 - 6) ∧
    (callback_counter (fun _ => 0) 6 0 4).samples_left ≤ 4 ∧
    ((0 : Int) < 6 → (callback_counter (fun _ => 0) 6 0 4).samples_left < 4) ∧
    ((callback_counter (fun _ => 0) 6 0 4).ret = 0
      ↔ (callback_counter (fun _ => 0) 6 0 4).samples_left ≤ 0) :=
  ⟨by decide, by decide, c6_monotone (fun _ => 0) 6 0 4 (by decide) (by decide)⟩

/-- C7: `callback_counter` prints the loss diagnostic once, before the data line, when the
loss flag is non-zero, and not at all when it is zero; in both cases it prints exactly one
data line, for every `n`. -/
theorem c7_loss_line (data : Nat → Nat) (ndata dataloss s : Int) :
    (callback_counter data ndata dataloss s).out
      = (if dataloss ≠ 0 then
          [OutLine.lossError, OutLine.data ndata (counter_loop data ndata ndata.toNat 0 0)]
        else [OutLine.data ndata (counter_loop data ndata ndata.toNat 0 0)]) ∧
    (callback_counter data ndata dataloss s).out.countP OutLine.isLoss
      = (if dataloss ≠ 0 then 1 else 0) ∧
    (callback_counter data ndata dataloss s).out.countP OutLine.isData = 1 := by
  by_cases hl : dataloss = 0 <;>
    simp [callback_counter, hl, OutLine.isLoss, OutLine.isData, List.countP_cons]

/-- C8: two calls of `callback_counter` that differ only in the loss flag print the same
data record, leave the same `samples_left` and return the same value; without the loss
diagnostic the printed lines are the same. -/
theorem c8_loss_independent (data : Nat → Nat) (ndata s d1 d2 : Int) :
    (callback_counter data ndata d1 s).out.filter OutLine.isData
      = (callback_counter data ndata d2 s).out.filter OutLine.isData ∧
    (callback_counter data ndata d1 s).samples_left
      = (callback_counter data ndata d2 s).samples_left ∧
    (callback_counter data ndata d1 s).ret = (callback_counter data ndata d2 s).ret ∧
    (callback_counter data ndata d1 s).out.filter (fun l => !l.isLoss)
      = (callback_counter data ndata d2 s).out.filter (fun l => !l.isLoss) := by
  refine ⟨?_, rfl, rfl, ?_⟩ <;>
    by_cases h1 : d1 = 0 <;> by_cases h2 : d2 = 0 <;>
      simp [callback_counter, h1, h2, OutLine.isLoss, OutLine.isData]

/-- C9: the channel decode of `callback_counter` keeps the low 10 bits of a sample `v`
(of any 16-bit sample, and of any natural number): it is `v & 0x03FF`, equals `v mod 1024`,
is at most 1023, and decoding twice is decoding once; a burst of the single sample `v` is
reported with the sum `v mod 1024`. -/
theorem c9_channel_mask (v : Nat) (dataloss s : Int) :
    decode_channel_sample v = v &&& 0x03FF ∧
    decode_channel_sample v = v % 1024 ∧
    decode_channel_sample v ≤ 1023 ∧
    decode_channel_sample (decode_channel_sample v) = decode_channel_sample v ∧
    (callback_counter (fun _ => v) 1 dataloss s).out.filter OutLine.isData
      = [OutLine.data 1 (v % 1024)] := by
  refine ⟨rfl, decode_channel_sample_eq_mod v, decode_channel_sample_le v, ?_, ?_⟩
  · simp only [decode_channel_sample_eq_mod]
    omega
  · have hm : v % 1024 % 18446744073709551616 = v % 1024 := by omega
    by_cases hl : dataloss = 0 <;>
      simp [callback_counter, counter_loop, decode_channel_sample_eq_mod, hl,
        OutLine.isData, hm]

/-- C10: for a first sample `v` in `[0, 65535]`, `transfer_callback` prints `v - 49152`
(the `int` subtraction does not wrap), after the loss notice if there is one; the value lies
in `[-49152, 16383]` and is negative exactly when `v < 49152`. -/
theorem c10_tagged_decode (data : Nat → Nat) (ndata dataloss s : Int)
    (hv : data 0 ≤ 65535) :
    (transfer_callback data ndata dataloss s).out
      = (if dataloss ≠ 0 then [OutLine.lossNotice] else [])
          ++ [OutLine.tagged ((data 0 : Int) - 49152)] ∧
    decode_tagged_sample (data 0) = (data 0 : Int) - 49152 ∧
    -49152 ≤ decode_tagged_sample (data 0) ∧ decode_tagged_sample (data 0) ≤ 16383 ∧
    (decode_tagged_sample (data 0) < 0 ↔ data 0 < 49152) := by
  have hd : decode_tagged_sample (data 0) = (data 0 : Int) - 49152 := by
    unfold decode_tagged_sample
    apply wrap32_of_isInt32
    unfold isInt32
    omega
  refine ⟨?_, hd, ?_, ?_, ?_⟩
  · simp only [transfer_callback, hd]
  · rw [hd]; omega
  · rw [hd]; omega
  · rw [hd]; omega

/-- C10 at a burst whose first sample is `50000`: the line printed is `848`. -/
theorem c10_tagged_decode_witness :
    (fun _ : Nat => 50000) 0 ≤ 65535 ∧
    (transfer_callback (fun _ => 50000) 1 0 10).out = [OutLine.tagged 848] :=
  ⟨by decide, (c10_tagged_decode (fun _ => 50000) 1 0 10 (by decide)).1.trans (by decide)⟩

/-- C11 (the code at the failing input): with `argc = 2` and the token `counter`,
`parse_config` returns `STATUS_SUCCESS` and leaves `*config` as it found it; `main` does
not print `ERR!: ARGS INCORRECT` and goes on to `ri_init()` and `ri_open_device()`. -/
theorem c11_unrecognized_token (st : StatusCodes) (config0 : Config) (deviceFound : Bool)
    (bursts : List Burst) :
    parse_config st 2 ["libdpd80", "counter"] config0 = (st.STATUS_SUCCESS, config0) ∧
    Event.errArgs ∉ (main st 2 ["libdpd80", "counter"] config0 deviceFound bursts).events ∧
    Event.ri_init ∈ (main st 2 ["libdpd80", "counter"] config0 deviceFound bursts).events ∧
    Event.ri_open_device
      ∈ (main st 2 ["libdpd80", "counter"] config0 deviceFound bursts).events := by
  have hp : parse_config st 2 ["libdpd80", "counter"] config0 = (st.STATUS_SUCCESS, config0) := by
    simp [parse_config]
  refine ⟨hp, ?_, ?_, ?_⟩ <;>
    cases deviceFound <;>
      by_cases hc : config0.measurement_type = COUNTER <;>
        simp [main, hp, hc]

/-- C12: `parse_config` returns `STATUS_FAILURE` and leaves `*config` unchanged when `argc`
is neither 1 nor 2; it returns `STATUS_SUCCESS` when `argc` is 1, and when `argc` is 2 and
the token is `histogram`. -/
theorem c12_argument_count (st : StatusCodes) (argc : Int) (argv : List String)
    (config : Config) :
    (argc ≠ 1 → argc ≠ 2 → parse_config st argc argv config = (st.STATUS_FAILURE, config)) ∧
    (argc = 1 → (parse_config st argc argv config).1 = st.STATUS_SUCCESS) ∧
    (argc = 2 → argv[1]? = some "histogram" →
      (parse_config st argc argv config).1 = st.STATUS_SUCCESS) := by
  refine ⟨fun h1 h2 => ?_, fun h1 => ?_, fun h2 ht => ?_⟩
  · simp [parse_config, h1, h2]
  · simp [parse_config, h1]
  · simp [parse_config, h2, ht]

/-- C12 at three, one and two arguments. -/
theorem c12_argument_count_witness :
    parse_config ⟨0, 1⟩ 3 ["libdpd80", "a", "b"] ⟨7, 9⟩ = (1, ⟨7, 9⟩) ∧
    (parse_config ⟨0, 1⟩ 1 ["libdpd80"] ⟨7, 9⟩).1 = 0 ∧
    (parse_config ⟨0, 1⟩ 2 ["libdpd80", "histogram"] ⟨7, 9⟩).1 = 0 :=
  ⟨(c12_argument_count ⟨0, 1⟩ 3 ["libdpd80", "a", "b"] ⟨7, 9⟩).1 (by decide) (by decide),
    (c12_argument_count ⟨0, 1⟩ 1 ["libdpd80"] ⟨7, 9⟩).2.1 rfl,
    (c12_argument_count ⟨0, 1⟩ 2 ["libdpd80", "histogram"] ⟨7, 9⟩).2.2 rfl rfl⟩

/-- C13: with `argc = 1`, `parse_config` succeeds with measurement type `COUNTER` and
`n_samples = 80,000,000 > 0`, whatever `*config` held; when the device opens, `main` starts
the transfer with `samples_left = 80,000,000`. -/
theorem c13_default_budget (st : StatusCodes) (argv : List String) (config0 : Config)
    (bursts : List Burst) :
    parse_config st 1 argv config0
      = (st.STATUS_SUCCESS, { measurement_type := COUNTER, n_samples := 80000000 }) ∧
    0 < (parse_config st 1 argv config0).2.n_samples ∧
    Event.transfer 80000000 (ri_start_continuous_transfer 80000000 bursts)
      ∈ (main st 1 argv config0 true bursts).events ∧
    (main st 1 argv config0 true bursts).events.countP Event.isTransfer = 1 := by
  have hp : parse_config st 1 argv config0
      = (st.STATUS_SUCCESS, { measurement_type := COUNTER, n_samples := 80000000 }) := by
    simp [parse_config]
  have hw : wrap64 80000000 = 80000000 := by decide
  refine ⟨hp, ?_, ?_, ?_⟩
  · rw [hp]; exact Nat.succ_pos _
  · simp [main, hp, hw]
  · simp [main, hp, hw, List.countP_cons, List.countP_append, Event.isTransfer,
      List.countP_eq_zero]

/-- C14: with the token `histogram`, `parse_config` succeeds and sets the measurement type
to `HISTOGRAM`; `main` then returns 1, its last output is an error message
(`ERR!: MEASUREMENT TYPE UNKNOWN` once the device is open, `Error: device not found`
otherwise), and it never starts a transfer, so `callback_counter` is never called. -/
theorem c14_histogram_rejected (st : StatusCodes) (prog : String) (config0 : Config)
    (deviceFound : Bool) (bursts : List Burst) :
    parse_config st 2 [prog, "histogram"] config0
      = (st.STATUS_SUCCESS, { config0 with measurement_type := HISTOGRAM }) ∧
    (main st 2 [prog, "histogram"] config0 deviceFound bursts).status = 1 ∧
    (main st 2 [prog, "histogram"] config0 deviceFound bursts).events.getLast?
      = some (if deviceFound then Event.errUnknownType else Event.errDeviceNotFound) ∧
    (main st 2 [prog, "histogram"] config0 deviceFound bursts).events.countP Event.isTransfer
      = 0 := by
  have hp : parse_config st 2 [prog, "histogram"] config0
      = (st.STATUS_SUCCESS, { config0 with measurement_type := HISTOGRAM }) := by
    simp [parse_config]
  have hne : HISTOGRAM ≠ COUNTER := by decide
  refine ⟨hp, ?_, ?_, ?_⟩
  · cases deviceFound <;> simp [main, hp, hne]
  · cases deviceFound <;> simp [main, hp, hne] <;> rfl
  · cases deviceFound <;>
      simp [main, hp, hne, List.countP_cons, List.countP_append, Event.isTransfer,
        List.countP_eq_zero]

/-- C15 (as stated, refuted): on a session with `samples_left = -2^63 + 1 <= 0` a burst of
2 samples takes the subtraction out of the `int64_t` range: the call leaves `2^63 - 1`,
larger than before, and returns 1. -/
theorem c15_counterexample :
    (-2 ^ 63 + 1 : Int) ≤ 0 ∧ isInt64 (-2 ^ 63 + 1) ∧ (0 : Int) ≤ 2 ∧
    (callback_counter (fun _ => 0) 2 0 (-2 ^ 63 + 1)).samples_left = 2 ^ 63 - 1 ∧
    ¬ ((callback_counter (fun _ => 0) 2 0 (-2 ^ 63 + 1)).samples_left ≤ -2 ^ 63 + 1) ∧
    (callback_counter (fun _ => 0) 2 0 (-2 ^ 63 + 1)).ret = 1 := by
  decide

/-- C15 (amended): on a session with `samples_left = s <= 0`, a call with `n >= 0` whose
result `s - n` is not below `-2^63` leaves `s - n`, which is not larger than `s`, and
returns 0; and every call of a sequence of bursts with `n >= 0` returns 0, as long as `s`
minus their total length is not below `-2^63`. -/
theorem c15_absorbing (data : Nat → Nat) (n dataloss s : Int) (bs : List Burst)
    (hs : s ≤ 0) (hn : 0 ≤ n) (hr : -2 ^ 63 ≤ s - n)
    (hbs : ∀ b ∈ bs, 0 ≤ b.ndata) (hrs : -2 ^ 63 ≤ s - (bs.map Burst.ndata).sum) :
    (callback_counter data n dataloss s).samples_left = s - n ∧
    (callback_counter data n dataloss s).samples_left ≤ s ∧
    (callback_counter data n dataloss s).ret = 0 ∧
    (deliver s bs).map (fun r => r.ret) = List.replicate bs.length 0 := by
  have one : ∀ (d : Nat → Nat) (m l t : Int), t ≤ 0 → 0 ≤ m → -2 ^ 63 ≤ t - m →
      (callback_counter d m l t).samples_left = t - m ∧ (callback_counter d m l t).ret = 0 := by
    intro d m l t ht hm hlow
    have h64 : isInt64 (t - m) := by unfold isInt64; omega
    rw [callback_counter_ret, callback_counter_left _ _ _ _ h64]
    have : ¬ (t - m > 0) := by omega
    simp [this]
  obtain ⟨h1, h2⟩ := one data n dataloss s hs hn hr
  refine ⟨h1, by rw [h1]; omega, h2, ?_⟩
  clear h1 h2 hr hn
  induction bs generalizing s with
  | nil => rfl
  | cons b bs ih =>
    have hb : 0 ≤ b.ndata := hbs b (List.mem_cons_self _ _)
    have hrest : ∀ c ∈ bs, 0 ≤ c.ndata := fun c hc => hbs c (List.mem_cons_of_mem _ hc)
    have hsum : 0 ≤ (bs.map Burst.ndata).sum := by
      apply List.sum_nonneg
      intro x hx
      obtain ⟨c, hc, rfl⟩ := List.mem_map.mp hx
      exact hrest c hc
    simp only [List.map_cons, List.sum_cons] at hrs
    obtain ⟨h1, h2⟩ := one b.data b.ndata b.dataloss s hs hb (by omega)
    simp only [deliver, List.map_cons, List.length_cons, List.replicate_succ]
    rw [h2, h1, ih (s - b.ndata) (by omega) hrest (by omega)]

/-- C15 (amended) at `samples_left = -2` (budget 10 after bursts 6, 6) and further bursts. -/
theorem c15_absorbing_witness :
    (callback_counter (fun _ => 0) 6 0 (-2)).samples_left = -2 - 6 ∧
    (callback_counter (fun _ => 0) 6 0 (-2)).samples_left ≤ -2 ∧
    (callback_counter (fun _ => 0) 6 0 (-2)).ret = 0 ∧
    (deliver (-2) [constBurst 0 6, constBurst 0 0, constBurst 0 3]).map (fun r => r.ret)
      = List.replicate [constBurst 0 6, constBurst 0 0, constBurst 0 3].length 0 :=
  c15_absorbing (fun _ => 0) 6 0 (-2) [constBurst 0 6, constBurst 0 0, constBurst 0 3]
    (by decide) (by decide) (by decide) (by decide) (by decide)

/-- C16: for a burst of `0 <= n <= 2^31 - 1` samples the `unsigned long long` accumulator of
`callback_counter` never wraps: every addition of the loop stays below `2^64`, the sum
reported is the exact sum of the masked samples, and it is at most `1023 * n < 2^64`. -/
theorem c16_no_wrap (data : Nat → Nat) (ndata dataloss s : Int)
    (h0 : 0 ≤ ndata) (h1 : ndata ≤ 2 ^ 31 - 1) :
    (callback_counter data ndata dataloss s).out.filter OutLine.isData
      = [OutLine.data ndata (burstSum data ndata.toNat)] ∧
    counter_loop data ndata ndata.toNat 0 0 = burstSum data ndata.toNat ∧
    ((counter_loop data ndata ndata.toNat 0 0 : Nat) : Int) ≤ 1023 * ndata ∧
    1023 * ndata < 2 ^ 64 ∧
    (∀ k, k < ndata.toNat → burstSum data k + decode_channel_sample (data k) < 2 ^ 64) := by
  have hn : ndata < 2 ^ 31 := by omega
  have hl := counter_loop_burstSum data ndata hn
  refine ⟨by rw [callback_counter_data_line, hl], hl, ?_, by omega, ?_⟩
  · rw [hl]
    have := burstSum_le data ndata.toNat
    omega
  · intro k hk
    have := burstSum_le data k
    have := decode_channel_sample_le (data k)
    omega

/-- C16 at a burst of 3 samples `0xFFFF`: the sum is `3 * 1023`. -/
theorem c16_no_wrap_witness :
    (0 : Int) ≤ 3 ∧ (3 : Int) ≤ 2 ^ 31 - 1 ∧
    counter_loop (fun _ => 0xFFFF) 3 (3 : Int).toNat 0 0 = 3069 ∧
    ((counter_loop (fun _ => 0xFFFF) 3 (3 : Int).toNat 0 0 : Nat) : Int) ≤ 1023 * 3 :=
  ⟨by decide, by decide, by decide,
    (c16_no_wrap (fun _ => 0xFFFF) 3 0 10 (by decide) (by decide)).2.2.1⟩

/-- C17: for a buffer of `n` samples and a split point `0 <= k <= n`, the calls of
`callback_counter` for the first `k` samples and then for the remaining `n - k` report two
sums that add up to the sum the call for the whole buffer reports, and leave the same
`samples_left` and the same return value as that single call, whatever the loss flags. -/
theorem c17_partition (data : Nat → Nat) (n k d d1 d2 s : Int)
    (hk0 : 0 ≤ k) (hkn : k ≤ n) (hn : n < 2 ^ 31) :
    (callback_counter data k d1 s).out.filter OutLine.isData
      = [OutLine.data k (counter_loop data k k.toNat 0 0)] ∧
    (callback_counter (fun i => data (k.toNat + i)) (n - k) d2
        (callback_counter data k d1 s).samples_left).out.filter OutLine.isData
      = [OutLine.data (n - k)
          (counter_loop (fun i => data (k.toNat + i)) (n - k) (n - k).toNat 0 0)] ∧
    (callback_counter data n d s).out.filter OutLine.isData
      = [OutLine.data n (counter_loop data k k.toNat 0 0
          + counter_loop (fun i => data (k.toNat + i)) (n - k) (n - k).toNat 0 0)] ∧
    (callback_counter (fun i => data (k.toNat + i)) (n - k) d2
        (callback_counter data k d1 s).samples_left).samples_left
      = (callback_counter data n d s).samples_left ∧
    (callback_counter (fun i => data (k.toNat + i)) (n - k) d2
        (callback_counter data k d1 s).samples_left).ret
      = (callback_counter data n d s).ret := by
  have hleft : (callback_counter (fun i => data (k.toNat + i)) (n - k) d2
        (callback_counter data k d1 s).samples_left).samples_left
      = (callback_counter data n d s).samples_left := by
    simp only [callback_counter]
    rw [wrap64_sub_wrap64]
    congr 1
    ring
  refine ⟨callback_counter_data_line _ _ _ _, callback_counter_data_line _ _ _ _, ?_, hleft, ?_⟩
  · rw [callback_counter_data_line, counter_loop_burstSum data n hn,
      counter_loop_burstSum data k (by omega),
      counter_loop_burstSum (fun i => data (k.toNat + i)) (n - k) (by omega),
      burstSum_split]
    have : k.toNat + (n - k).toNat = n.toNat := by omega
    rw [this]
  · rw [callback_counter_ret, hleft, callback_counter_ret]

/-- C17 at a buffer of 5 samples split after 2, on a budget of 4. -/
theorem c17_partition_witness :
    (0 : Int) ≤ 2 ∧ (2 : Int) ≤ 5 ∧ (5 : Int) < 2 ^ 31 ∧
    (callback_counter (fun i => 2 * i) 5 0 4).out.filter OutLine.isData
      = [OutLine.data 5 (counter_loop (fun i => 2 * i) 2 (2 : Int).toNat 0 0
          + counter_loop (fun i => (fun i => 2 * i) ((2 : Int).toNat + i)) (5 - 2)
              ((5 : Int) - 2).toNat 0 0)] :=
  ⟨by decide, by decide, by decide,
    (c17_partition (fun i => 2 * i) 5 2 0 0 0 4 (by decide) (by decide) (by decide)).2.2.1⟩

/-- C18: on a buffer that holds at least `ndata` samples, `callback_counter` (its loop
given any fuel of at least `ndata` iterations) returns what `callback_counter` returns and
has read exactly the indices `0 .. ndata - 1`, in order, none of them outside the buffer,
and none at all when `ndata <= 0`; `transfer_callback` reads `data[0]` in every call: on a
buffer of at least one sample it returns what `transfer_callback` returns, having read
index 0 only, and on an empty buffer its read of index 0 is out of bounds. -/
theorem c18_reads_in_bounds (buf : List Nat) (ndata dataloss s : Int) (extra : Nat)
    (h : ndata ≤ buf.length) :
    callback_counter_mem (ndata.toNat + extra) buf ndata dataloss s
      = CallOutcome.returned (callback_counter (fun j => buf.getD j 0) ndata dataloss s)
          (List.range ndata.toNat) ∧
    (∀ i ∈ List.range ndata.toNat, i < buf.length) ∧
    (ndata ≤ 0 →
      callback_counter_mem (ndata.toNat + extra) buf ndata dataloss s
        = CallOutcome.returned (callback_counter (fun j => buf.getD j 0) ndata dataloss s) []) ∧
    transfer_callback_mem buf ndata dataloss s
      = (if 1 ≤ buf.length then
          CallOutcome.returned (transfer_callback (fun j => buf.getD j 0) ndata dataloss s) [0]
        else CallOutcome.outOfBounds 0) := by
  have hc : callback_counter_mem (ndata.toNat + extra) buf ndata dataloss s
      = CallOutcome.returned (callback_counter (fun j => buf.getD j 0) ndata dataloss s)
          (List.range ndata.toNat) := by
    unfold callback_counter_mem
    rw [counter_loop_mem_eq buf ndata _ 0 0 [] h (by simp)]
    simp [callback_counter, List.range_eq_range']
  refine ⟨hc, ?_, ?_, ?_⟩
  · intro i hi
    rw [List.mem_range] at hi
    omega
  · intro hle
    have h0 : ndata.toNat = 0 := by omega
    rw [hc, h0]
    rfl
  · unfold transfer_callback_mem
    cases buf with
    | nil => simp
    | cons w ws => simp [transfer_callback]

/-- C18 at a buffer of the 3 samples `0x32`, `0x33`, `0x34` and `ndata = 3`, with fuel for 5
iterations: the reads are `data[0]`, `data[1]`, `data[2]`. -/
theorem c18_reads_in_bounds_witness :
    ((3 : Int) ≤ ([0x32, 0x33, 0x34] : List Nat).length) ∧
    callback_counter_mem ((3 : Int).toNat + 2) [0x32, 0x33, 0x34] 3 0 10
      = CallOutcome.returned
          { out := [OutLine.data 3 153], samples_left := 7, ret := 1 } [0, 1, 2] :=
  ⟨by decide,
    (c18_reads_in_bounds [0x32, 0x33, 0x34] 3 0 10 2 (by decide)).1.trans (by decide)⟩

end Dpd80
